import Mathlib

/-!
Shallow embedding of the session-manager, route-guard and gist-service
layer of the `gist-client` repository, with theorems checking the
specification's claims about it.

Source files embedded:
* `src/lib/auth/auth-provider.tsx` — `AuthProvider` (`login`, `logout`,
  the startup `useEffect`);
* `src/components/auth/protected-route.tsx` — `ProtectedRoute`;
* `src/lib/api/gist-service.ts` — `GistService` (`isGistStarred`,
  `createGist`, `addStargazersCount`);
* `src/components/pages/gist-create-page.tsx` — `onSubmit` payload build;
* the gist edit page — `onSubmit` payload build (files array →
  filename-keyed update record).
-/

namespace GistClient

/-! Session manager (`src/lib/auth/auth-provider.tsx`) -/

/-- The identity record returned by `octokit.users.getAuthenticated()`.
The provider stores it as an untyped value; only `login` is read by the
auth layer itself (for the welcome toast). -/
structure User where
  login : String
deriving DecidableEq, Repr

/-- The client handle built by `new Octokit(...)`, remembering the token it
was constructed from. -/
structure Octokit where
  auth : String
deriving DecidableEq, Repr

/-- The provider's React state (`useState` fields) together with the one
persisted value, `localStorage['github_token']` (`storedToken`). -/
structure AuthState where
  isAuthenticated : Bool
  isLoading : Bool
  user : Option User
  token : Option String
  octokit : Option Octokit
  storedToken : Option String
deriving DecidableEq, Repr

/-- State at mount: `useState(false)`, `useState(true)`, `null` fields;
`stored` is whatever `localStorage` holds at process start. -/
def initState (stored : Option String) : AuthState :=
  { isAuthenticated := false
    isLoading := true
    user := none
    token := none
    octokit := none
    storedToken := stored }

/-- The remote identity probe `users.getAuthenticated()`, as a function of
the token the client was constructed with: `some u` when the call
succeeds, `none` when it throws. -/
def Probe : Type := String → Option User

/-- The `login(newToken)` operation: sets loading, builds a client, probes the identity
endpoint; on success persists the token and fills the session fields, on
failure rethrows having changed nothing else; the `finally` clears
loading either way. The returned `Bool` is `true` on success, `false`
when the thrown error reaches the caller. -/
def login (probe : Probe) (newToken : String) (s : AuthState) : AuthState × Bool :=
  let s₁ := { s with isLoading := true }
  let newOctokit : Octokit := { auth := newToken }
  match probe newToken with
  | some userData =>
      ({ s₁ with
          storedToken := some newToken
          token := some newToken
          user := some userData
          octokit := some newOctokit
          isAuthenticated := true
          isLoading := false }, true)
  | none =>
      ({ s₁ with isLoading := false }, false)

/-- The `logout()` operation: removes the persisted token and resets every in-memory
session field. -/
def logout (s : AuthState) : AuthState :=
  { s with
      storedToken := none
      token := none
      user := none
      octokit := none
      isAuthenticated := false }

/-- JS truthiness of an optional string (a `localStorage.getItem` result,
or the edit form's optional `originalFilename`): present and non-empty. -/
def strTruthy : Option String → Bool
  | none => false
  | some s => decide (s ≠ "")

/-- The mount `useEffect`: if a truthy token is stored (`if (storedToken)`
is false for both a missing entry and an empty string), auto-login with
it and on failure remove the stored token and clear loading; otherwise
just clear loading, leaving any falsy entry in storage. -/
def startup (probe : Probe) (stored : Option String) : AuthState :=
  if strTruthy stored then
    if (login probe (stored.getD "") (initState stored)).2 then
      (login probe (stored.getD "") (initState stored)).1
    else { (login probe (stored.getD "") (initState stored)).1 with
            storedToken := none, isLoading := false }
  else { initState stored with isLoading := false }

/-- The session invariant of spec §3: `authenticated` implies the identity
and the client handle are present. -/
def SessionInv (s : AuthState) : Prop :=
  s.isAuthenticated = true → s.user.isSome = true ∧ s.octokit.isSome = true

/-- States of the session manager reachable from a mount (with any
starting `localStorage` content) by the provider's operations. -/
inductive Reachable (probe : Probe) : AuthState → Prop
  | mount (stored : Option String) : Reachable probe (initState stored)
  | startupStep (stored : Option String) : Reachable probe (startup probe stored)
  | loginStep (t : String) (s : AuthState) :
      Reachable probe s → Reachable probe (login probe t s).1
  | logoutStep (s : AuthState) :
      Reachable probe s → Reachable probe (logout s)

/-! Route guard (`src/components/auth/protected-route.tsx`) -/

/-- What `ProtectedRoute` renders: the spinner wrapper, a `<Navigate>`
element (with target, captured location state and `replace`), or the
nested `<Outlet/>`. -/
inductive RouteView where
  | loadingSpinner : RouteView
  | navigate (target : String) (fromLocation : String) (replace : Bool) : RouteView
  | outlet : RouteView
deriving DecidableEq, Repr

/-- The `ProtectedRoute` component as a function of the auth snapshot and
the current location. -/
def ProtectedRoute (isAuthenticated isLoading : Bool) (location : String) : RouteView :=
  if isLoading then .loadingSpinner
  else if !isAuthenticated then .navigate "/login" location true
  else .outlet

/-! Gist service (`src/lib/api/gist-service.ts`) -/

/-- The `owner` record of a gist. -/
structure Owner where
  login : String
  avatar_url : String
deriving DecidableEq, Repr

/-- The `GistFile` interface. -/
structure GistFile where
  filename : String
  content : String
  language : Option String
  type : Option String
  raw_url : Option String
  size : Option Int
deriving DecidableEq, Repr

/-- The `Gist` interface. `files` is the filename-keyed record, kept as an
association list. -/
structure Gist where
  id : String
  description : String
  public : Bool
  created_at : String
  updated_at : String
  comments : Int
  html_url : String
  files : List (String × GistFile)
  owner : Owner
  stargazers_count : Option Int
  truncated : Option Bool
deriving DecidableEq, Repr

/-- Outcome of the remote `gists.checkIsStarred` call when it throws: the
negative existence check (404 for a gist the user has not starred) or any
other remote failure, e.g. a network error. -/
inductive RemoteErr where
  | notStarred : RemoteErr
  | network : RemoteErr
  | other : RemoteErr
deriving DecidableEq, Repr

/-- The `isGistStarred` method: the remote check inside a catch-all that
returns `false`, as a function of the remote call's outcome. It is
total — no error ever reaches the caller. -/
def isGistStarred (check : Except RemoteErr Unit) : Bool :=
  match check with
  | .ok _ => true
  | .error _ => false

/-- The `addStargazersCount` method: each gist in turn receives
`Math.floor(Math.random() * 100)` as its `stargazers_count`. `rand i` is
the `i`-th value drawn from `Math.random()`, a rational in `[0, 1)`. -/
def addStargazersCount (rand : Nat → ℚ) : Nat → List Gist → List Gist
  | _, [] => []
  | i, g :: gs =>
      { g with stargazers_count := some ⌊rand i * 100⌋ } ::
        addStargazersCount rand (i + 1) gs

/-- Agreement on every `Gist` field except `stargazers_count`. -/
def sameExceptStars (a b : Gist) : Prop :=
  a.id = b.id ∧ a.description = b.description ∧ a.public = b.public ∧
    a.created_at = b.created_at ∧ a.updated_at = b.updated_at ∧
    a.comments = b.comments ∧ a.html_url = b.html_url ∧
    a.files = b.files ∧ a.owner = b.owner ∧ a.truncated = b.truncated

/-! Filename-keyed records built by the form pages

A JS object written by successive `obj[key] = value` assignments: an
assignment to a present key replaces its value in place, an assignment to
an absent key appends the entry. `none` as a value is the update API's
deletion marker (`null`). -/

/-- The payload record: JS object from filename to `{ content }` or
`null`. -/
abbrev Record := List (String × Option String)

/-- Assignment `obj[k] = v` on a JS object. -/
def recordSet (obj : Record) (k : String) (v : Option String) : Record :=
  match obj with
  | [] => [(k, v)]
  | (k₁, v₁) :: rest =>
      if k₁ = k then (k, v) :: rest else (k₁, v₁) :: recordSet rest k v

/-- Lookup `obj[k]`: `some v` when the key is present with value `v`,
`none` when absent. -/
def recordLookup (obj : Record) (k : String) : Option (Option String) :=
  match obj with
  | [] => none
  | (k₁, v₁) :: rest => if k₁ = k then some v₁ else recordLookup rest k

/-- Number of entries of the record carrying key `k`. -/
def countKey (obj : Record) (k : String) : Nat :=
  (obj.map Prod.fst).count k

/-- The request `gists.create` receives. -/
structure CreateRequest where
  description : String
  files : Record
  public : Bool
deriving DecidableEq, Repr

/-- The `createGist` method hands its arguments to
`octokit.gists.create` unchanged; the embedding returns the request it
sends. -/
def createGist (description : String) (files : Record) (isPublic : Bool) :
    CreateRequest :=
  { description := description, files := files, public := isPublic }

/-! Create page (`src/components/pages/gist-create-page.tsx`) -/

/-- One entry of the create form's `files` array. -/
structure CreateFormFile where
  filename : String
  content : String
deriving DecidableEq, Repr

/-- One iteration of the create page's `data.files.forEach`:
`filesObj[file.filename] = { content: file.content }`. -/
def createStep (obj : Record) (f : CreateFormFile) : Record :=
  recordSet obj f.filename (some f.content)

/-- The create page's `filesObj` after the `forEach` over `data.files`. -/
def buildCreatePayload (files : List CreateFormFile) : Record :=
  files.foldl createStep []

/-! Edit page (`GistEditPage.onSubmit`) -/

/-- One entry of the edit form's `files` array. -/
structure FormFile where
  originalFilename : Option String
  filename : String
  content : String
  isDeleted : Bool
deriving DecidableEq, Repr

/-- One iteration of the edit page's `data.files.forEach`: deletion of an
existing file writes `null` under the original name; a rename writes
`null` under the original name and the content under the new name; any
other entry writes the content under its current name. -/
def updateStep (obj : Record) (f : FormFile) : Record :=
  if f.isDeleted = true ∧ strTruthy f.originalFilename = true then
    recordSet obj (f.originalFilename.getD "") none
  else if strTruthy f.originalFilename = true ∧
      f.originalFilename.getD "" ≠ f.filename then
    recordSet (recordSet obj (f.originalFilename.getD "") none)
      f.filename (some f.content)
  else
    recordSet obj f.filename (some f.content)

/-- The edit page's `filesObj` after the `forEach` over `data.files`. -/
def buildUpdatePayload (files : List FormFile) : Record :=
  files.foldl updateStep []

/-- The single write a form entry performs at key `k` during its
`updateStep`, if any: `some none` is the deletion marker, `some (some c)`
content `c`, `none` no write at `k`. (A rename touches two distinct
keys; every branch touches a given key at most once.) -/
def writeAt (f : FormFile) (k : String) : Option (Option String) :=
  if f.isDeleted = true ∧ strTruthy f.originalFilename = true then
    if f.originalFilename.getD "" = k then some none else none
  else if strTruthy f.originalFilename = true ∧
      f.originalFilename.getD "" ≠ f.filename then
    if f.filename = k then some (some f.content)
    else if f.originalFilename.getD "" = k then some none
    else none
  else
    if f.filename = k then some (some f.content) else none

/-- The single write a create-form entry performs at key `k`. -/
def writeAtCreate (f : CreateFormFile) (k : String) : Option (Option String) :=
  if f.filename = k then some (some f.content) else none

/-- Layering one optional write over a base lookup result. -/
def overlay (w : Option (Option String)) (base : Option (Option String)) :
    Option (Option String) :=
  match w with
  | some v => some v
  | none => base

/-! Helper lemmas about the record operations -/

theorem recordLookup_recordSet_self (obj : Record) (k : String) (v : Option String) :
    recordLookup (recordSet obj k v) k = some v := by
  induction obj with
  | nil => simp [recordSet, recordLookup]
  | cons e rest ih =>
    obtain ⟨k₁, v₁⟩ := e
    by_cases h : k₁ = k
    · simp [recordSet, recordLookup, h]
    · simp [recordSet, recordLookup, h, ih]

theorem recordLookup_recordSet_ne (obj : Record) (k k' : String) (v : Option String)
    (h : k' ≠ k) : recordLookup (recordSet obj k v) k' = recordLookup obj k' := by
  induction obj with
  | nil => simp [recordSet, recordLookup, Ne.symm h]
  | cons e rest ih =>
    obtain ⟨k₁, v₁⟩ := e
    by_cases h₁ : k₁ = k
    · subst h₁
      simp [recordSet, recordLookup, Ne.symm h]
    · simp [recordSet, recordLookup, h₁, ih]

theorem recordLookup_createStep (obj : Record) (f : CreateFormFile) (k : String) :
    recordLookup (createStep obj f) k = overlay (writeAtCreate f k) (recordLookup obj k) := by
  unfold createStep writeAtCreate
  by_cases h : f.filename = k
  · rw [if_pos h, h, recordLookup_recordSet_self]; rfl
  · rw [if_neg h, recordLookup_recordSet_ne _ _ _ _ (fun hk => h hk.symm)]; rfl

theorem recordLookup_updateStep (obj : Record) (f : FormFile) (k : String) :
    recordLookup (updateStep obj f) k = overlay (writeAt f k) (recordLookup obj k) := by
  unfold updateStep writeAt
  by_cases h₁ : f.isDeleted = true ∧ strTruthy f.originalFilename = true
  · rw [if_pos h₁, if_pos h₁]
    by_cases h₂ : f.originalFilename.getD "" = k
    · rw [if_pos h₂, h₂, recordLookup_recordSet_self]; rfl
    · rw [if_neg h₂, recordLookup_recordSet_ne _ _ _ _ (fun hk => h₂ hk.symm)]; rfl
  · rw [if_neg h₁, if_neg h₁]
    by_cases h₂ : strTruthy f.originalFilename = true ∧
        f.originalFilename.getD "" ≠ f.filename
    · rw [if_pos h₂, if_pos h₂]
      by_cases h₃ : f.filename = k
      · rw [if_pos h₃, h₃, recordLookup_recordSet_self]; rfl
      · rw [if_neg h₃, recordLookup_recordSet_ne _ _ _ _ (fun hk => h₃ hk.symm)]
        by_cases h₄ : f.originalFilename.getD "" = k
        · rw [if_pos h₄, h₄, recordLookup_recordSet_self]; rfl
        · rw [if_neg h₄, recordLookup_recordSet_ne _ _ _ _ (fun hk => h₄ hk.symm)]; rfl
    · rw [if_neg h₂, if_neg h₂]
      by_cases h₃ : f.filename = k
      · rw [if_pos h₃, h₃, recordLookup_recordSet_self]; rfl
      · rw [if_neg h₃, recordLookup_recordSet_ne _ _ _ _ (fun hk => h₃ hk.symm)]; rfl

theorem getLast?_cons_exists {α : Type} (xs : List α) (x : α) :
    ∃ y, (x :: xs).getLast? = some y := by
  induction xs generalizing x with
  | nil => exact ⟨x, rfl⟩
  | cons z zs ih =>
    obtain ⟨y, hy⟩ := ih z
    exact ⟨y, by rw [List.getLast?_cons_cons, hy]⟩

theorem getLast?_all_eq {α : Type} (l : List α) (v : α) :
    l ≠ [] → (∀ x ∈ l, x = v) → l.getLast? = some v := by
  induction l with
  | nil => intro hne _; exact absurd rfl hne
  | cons x xs ih =>
    intro _ h
    cases xs with
    | nil => rw [h x (List.mem_cons_self x [])]; rfl
    | cons z zs =>
      rw [List.getLast?_cons_cons]
      exact ih (by simp) (fun y hy => h y (List.mem_cons_of_mem x hy))

theorem getLast?_map {α β : Type} (g : α → β) (l : List α) :
    (l.map g).getLast? = l.getLast?.map g := by
  induction l with
  | nil => rfl
  | cons x xs ih =>
    cases xs with
    | nil => rfl
    | cons z zs =>
      rw [List.map_cons, List.map_cons, List.getLast?_cons_cons,
        List.getLast?_cons_cons, ← List.map_cons g z zs, ih]

theorem recordLookup_foldl {α : Type} (step : Record → α → Record)
    (w : α → String → Option (Option String))
    (hstep : ∀ obj f k, recordLookup (step obj f) k = overlay (w f k) (recordLookup obj k)) :
    ∀ (fs : List α) (obj : Record) (k : String),
      recordLookup (fs.foldl step obj) k =
        overlay ((fs.filterMap (fun f => w f k)).getLast?) (recordLookup obj k) := by
  intro fs
  induction fs with
  | nil => intro obj k; rfl
  | cons f rest ih =>
    intro obj k
    rw [List.foldl_cons, ih, hstep]
    cases hw : w f k with
    | none => simp only [List.filterMap_cons, hw, overlay]
    | some v =>
      simp only [List.filterMap_cons, hw]
      cases hl : rest.filterMap (fun f => w f k) with
      | nil => rfl
      | cons x xs =>
        rw [List.getLast?_cons_cons]
        obtain ⟨y, hy⟩ := getLast?_cons_exists xs x
        rw [hy]
        rfl

theorem recordLookup_buildUpdatePayload (fs : List FormFile) (k : String) :
    recordLookup (buildUpdatePayload fs) k =
      overlay ((fs.filterMap (fun f => writeAt f k)).getLast?) none :=
  recordLookup_foldl updateStep writeAt recordLookup_updateStep fs [] k

theorem recordLookup_buildCreatePayload (fs : List CreateFormFile) (k : String) :
    recordLookup (buildCreatePayload fs) k =
      overlay ((fs.filterMap (fun f => writeAtCreate f k)).getLast?) none :=
  recordLookup_foldl createStep writeAtCreate recordLookup_createStep fs [] k

theorem map_fst_recordSet (obj : Record) (k : String) (v : Option String) :
    (recordSet obj k v).map Prod.fst =
      if k ∈ obj.map Prod.fst then obj.map Prod.fst else obj.map Prod.fst ++ [k] := by
  induction obj with
  | nil => simp [recordSet]
  | cons e rest ih =>
    obtain ⟨k₁, v₁⟩ := e
    by_cases h : k₁ = k
    · subst h; simp [recordSet]
    · by_cases hm : k ∈ rest.map Prod.fst
      · simp [recordSet, h, ih, hm, Ne.symm h]
      · simp [recordSet, h, ih, hm, Ne.symm h]

theorem countKey_recordSet_le (obj : Record) (k k' : String) (v : Option String)
    (h : countKey obj k' ≤ 1) : countKey (recordSet obj k v) k' ≤ 1 := by
  unfold countKey at h ⊢
  rw [map_fst_recordSet]
  split
  · exact h
  next hmem =>
    rw [List.count_append]
    by_cases hk : k' = k
    · subst hk
      rw [List.count_eq_zero.mpr hmem]
      simp
    · have hz : List.count k' [k] = 0 := List.count_eq_zero.mpr (by simp [hk])
      omega

theorem countKey_foldl_createStep_le (fs : List CreateFormFile) :
    ∀ (obj : Record), (∀ k, countKey obj k ≤ 1) →
      ∀ k, countKey (fs.foldl createStep obj) k ≤ 1 := by
  induction fs with
  | nil => intro obj h k; exact h k
  | cons f rest ih =>
    intro obj h k
    rw [List.foldl_cons]
    exact ih (createStep obj f)
      (fun k' => countKey_recordSet_le obj f.filename k' (some f.content) (h k')) k

theorem mem_of_recordLookup_eq_some (obj : Record) (k : String) (v : Option String)
    (h : recordLookup obj k = some v) : k ∈ obj.map Prod.fst := by
  induction obj with
  | nil => exact absurd h (by simp [recordLookup])
  | cons e rest ih =>
    obtain ⟨k₁, v₁⟩ := e
    by_cases h₁ : k₁ = k
    · subst h₁; simp
    · rw [recordLookup, if_neg h₁] at h
      simp only [List.map_cons, List.mem_cons]
      exact Or.inr (ih h)

theorem filterMap_writeAtCreate (fs : List CreateFormFile) (k : String) :
    fs.filterMap (fun f => writeAtCreate f k) =
      (fs.filter (fun f => decide (f.filename = k))).map (fun f => some f.content) := by
  induction fs with
  | nil => rfl
  | cons f rest ih =>
    by_cases h : f.filename = k
    · have hwc : writeAtCreate f k = some (some f.content) := by
        unfold writeAtCreate; rw [if_pos h]
      simp only [List.filterMap_cons, hwc, List.filter_cons, if_pos (decide_eq_true h),
        List.map_cons, ih]
    · have hwc : writeAtCreate f k = none := by
        unfold writeAtCreate; rw [if_neg h]
      simp only [List.filterMap_cons, hwc, List.filter_cons, if_neg (by simp [h] :
        ¬decide (f.filename = k) = true), ih]

/-- A form entry that writes the deletion marker at `o` wins at `o`
provided no entry of the list writes content there. -/
theorem lookup_null_writer (fs : List FormFile) (e : FormFile) (o : String)
    (he : e ∈ fs) (hw : writeAt e o = some none)
    (hcf : ∀ f ∈ fs, writeAt f o = none ∨ writeAt f o = some none) :
    recordLookup (buildUpdatePayload fs) o = some none := by
  rw [recordLookup_buildUpdatePayload]
  have hmem : (none : Option String) ∈ fs.filterMap (fun f => writeAt f o) :=
    List.mem_filterMap.mpr ⟨e, he, hw⟩
  have hall : ∀ x ∈ fs.filterMap (fun f => writeAt f o), x = none := by
    intro x hx
    obtain ⟨f, hf, hfx⟩ := List.mem_filterMap.mp hx
    rcases hcf f hf with h | h
    · rw [h] at hfx; exact absurd hfx (by simp)
    · rw [h] at hfx; exact (Option.some_inj.mp hfx).symm
  rw [getLast?_all_eq _ _ (List.ne_nil_of_mem hmem) hall]
  rfl

/-- A form entry that is the only one touching key `k`, and writes its
content there, determines the final value at `k`. -/
theorem lookup_only_writer (fs : List FormFile) (e : FormFile) (k : String)
    (he : e ∈ fs) (hw : writeAt e k = some (some e.content))
    (honly : ∀ f ∈ fs, f = e ∨ writeAt f k = none) :
    recordLookup (buildUpdatePayload fs) k = some (some e.content) := by
  rw [recordLookup_buildUpdatePayload]
  have hmem : (some e.content) ∈ fs.filterMap (fun f => writeAt f k) :=
    List.mem_filterMap.mpr ⟨e, he, hw⟩
  have hall : ∀ x ∈ fs.filterMap (fun f => writeAt f k), x = some e.content := by
    intro x hx
    obtain ⟨f, hf, hfx⟩ := List.mem_filterMap.mp hx
    rcases honly f hf with heq | hnone
    · subst heq
      rw [hw] at hfx
      exact (Option.some_inj.mp hfx).symm
    · rw [hnone] at hfx; exact absurd hfx (by simp)
  rw [getLast?_all_eq _ _ (List.ne_nil_of_mem hmem) hall]
  rfl

/-! Helper lemmas about the session manager -/

theorem sessionInv_initState (stored : Option String) : SessionInv (initState stored) := by
  intro h
  exact absurd h (by simp [initState])

theorem sessionInv_login (probe : Probe) (t : String) (s : AuthState)
    (h : SessionInv s) : SessionInv (login probe t s).1 := by
  unfold login
  cases hp : probe t with
  | some u => intro _; exact ⟨rfl, rfl⟩
  | none => intro hauth; exact h hauth

theorem sessionInv_logout (s : AuthState) : SessionInv (logout s) := by
  intro h
  exact absurd h (by simp [logout])

theorem sessionInv_startup (probe : Probe) (stored : Option String) :
    SessionInv (startup probe stored) := by
  unfold startup
  by_cases htr : strTruthy stored = true
  · rw [if_pos htr]
    have h₁ := sessionInv_login probe (stored.getD "") (initState stored)
      (sessionInv_initState stored)
    split
    · exact h₁
    · intro hauth; exact h₁ hauth
  · rw [if_neg htr]
    intro h
    exact absurd h (by simp [initState])

/-! Concrete data used by witnesses and counterexamples -/

def aliceUser : User := { login := "alice" }

/-- A probe accepting exactly the token `"good"`. -/
def validProbe : Probe := fun t => if t = "good" then some aliceUser else none

/-- A probe for which every token is invalid. -/
def rejectAll : Probe := fun _ => none

/-- A session in which a previous `login` with token `"old"` succeeded. -/
def authedState : AuthState :=
  { isAuthenticated := true
    isLoading := false
    user := some aliceUser
    token := some "old"
    octokit := some { auth := "old" }
    storedToken := some "old" }

def exOwner : Owner := { login := "alice", avatar_url := "http://a" }

def exGist : Gist :=
  { id := "g1"
    description := "demo"
    public := true
    created_at := "t0"
    updated_at := "t1"
    comments := 0
    html_url := "http://g"
    files := [("a.txt", { filename := "a.txt", content := "hello",
                          language := none, type := none, raw_url := none, size := none })]
    owner := exOwner
    stargazers_count := none
    truncated := none }

/-- A `Math.random()` stream that always yields `0`. -/
def randZero : Nat → ℚ := fun _ => 0

/-- A `Math.random()` stream that always yields `1/2`. -/
def randHalf : Nat → ℚ := fun _ => 1 / 2

/-- An edit-form entry marking the existing file `a.txt` as deleted. -/
def deletedEntry : FormFile :=
  { originalFilename := some "a.txt", filename := "a.txt", content := "x", isDeleted := true }

/-- A new edit-form entry whose filename collides with `a.txt`. -/
def collidingEntry : FormFile :=
  { originalFilename := none, filename := "a.txt", content := "y", isDeleted := false }

/-! Claim theorems -/

/-- Claim C1 as frozen is false: called from an already-authenticated
session, `login` with an invalid token does fail, but it leaves the old
persisted token in local storage and leaves `authenticated = true` — the
catch branch removes nothing and resets nothing. -/
theorem C1_counterexample :
    (login rejectAll "bad" authedState).2 = false ∧
      (login rejectAll "bad" authedState).1.storedToken = some "old" ∧
      (login rejectAll "bad" authedState).1.isAuthenticated = true := by
  decide

/-- Claim C1 (amended): for every invalid token, `login` fails (signals
the error to its caller) and leaves the whole session state exactly as it
was, apart from clearing the loading flag; in particular, when called
from a state with no persisted token and `authenticated = false` — the
state of any session that never logged in — it leaves no persisted token
and leaves `authenticated = false`. -/
theorem C1_login_invalid_token (probe : Probe) (tok : String) (s : AuthState)
    (h : probe tok = none) :
    (login probe tok s).2 = false ∧
      (login probe tok s).1 = { s with isLoading := false } := by
  unfold login
  rw [h]
  exact ⟨rfl, rfl⟩

theorem C1_witness :
    rejectAll "bad" = none ∧
      (login rejectAll "bad" (initState none)).2 = false ∧
      (login rejectAll "bad" (initState none)).1 = { initState none with isLoading := false } :=
  ⟨rfl, C1_login_invalid_token rejectAll "bad" (initState none) rfl⟩

/-- Claim C2: in every state of the session manager reachable from a
mount by startup resolution, login (successful or failed) and logout,
`authenticated = true` implies the identity and the client handle are
both present. -/
theorem C2_session_invariant (probe : Probe) (s : AuthState)
    (h : Reachable probe s) : SessionInv s := by
  induction h with
  | mount stored => exact sessionInv_initState stored
  | startupStep stored => exact sessionInv_startup probe stored
  | loginStep t s' _ ih => exact sessionInv_login probe t s' ih
  | logoutStep s' _ _ => exact sessionInv_logout s'

theorem C2_witness :
    (startup validProbe (some "good")).user.isSome = true ∧
      (startup validProbe (some "good")).octokit.isSome = true :=
  C2_session_invariant validProbe (startup validProbe (some "good"))
    (Reachable.startupStep (some "good")) (by decide)

/-- Claim C6: the route guard is a pure three-state function of the
session snapshot — loading renders the wait indicator whatever the
authenticated flag says, not-loading-and-unauthenticated redirects to
`/login` capturing the requested location, and
not-loading-and-authenticated renders the nested content. -/
theorem C6_protected_route :
    (∀ (auth : Bool) (loc : String), ProtectedRoute auth true loc = .loadingSpinner) ∧
      (∀ loc : String, ProtectedRoute false false loc = .navigate "/login" loc true) ∧
      (∀ loc : String, ProtectedRoute true false loc = .outlet) :=
  ⟨fun _ _ => rfl, fun _ => rfl, fun _ => rfl⟩

/-- Claim C7: `logout` always clears the persisted token and the
in-memory token, identity and client handle, sets `authenticated = false`,
and is idempotent — a second `logout` leaves the state unchanged. It is a
total function: it cannot fail. -/
theorem C7_logout_idempotent (s : AuthState) :
    (logout s).storedToken = none ∧ (logout s).token = none ∧
      (logout s).user = none ∧ (logout s).octokit = none ∧
      (logout s).isAuthenticated = false ∧ logout (logout s) = logout s :=
  ⟨rfl, rfl, rfl, rfl, rfl, rfl⟩

/-- Claim C8 as frozen is false at a persisted empty-string token: `""`
is a persisted invalid token (the probe rejects every token), yet the
mount effect's `if (storedToken)` is falsy for `""`, so startup never
calls login and never removes the entry — the stored token stays in
storage, against the claim's "the stored token is removed". Loading does
resolve to false with authenticated false. -/
theorem C8_counterexample :
    rejectAll "" = none ∧
      (startup rejectAll (some "")).storedToken = some "" ∧
      (startup rejectAll (some "")).isAuthenticated = false ∧
      (startup rejectAll (some "")).isLoading = false := by
  decide

/-- Claim C8 (amended): at mount, loading is true; if no truthy persisted
token exists (entry missing, or the falsy empty string), loading is set
false immediately with authenticated remaining false and the storage
entry untouched; if a truthy persisted valid token exists, startup
reaches `authenticated = true` without interaction (`startup` is a
function of the stored token alone); if a truthy persisted invalid token
exists, the stored token is removed and the session resolves to
unauthenticated with loading false. -/
theorem C8_startup_resolution (probe : Probe) :
    (∀ stored, (initState stored).isLoading = true) ∧
      (∀ stored, strTruthy stored = false →
        (startup probe stored).isLoading = false ∧
          (startup probe stored).isAuthenticated = false ∧
          (startup probe stored).storedToken = stored) ∧
      (∀ t u, t ≠ "" → probe t = some u →
        (startup probe (some t)).isAuthenticated = true ∧
          (startup probe (some t)).isLoading = false) ∧
      (∀ t, t ≠ "" → probe t = none →
        (startup probe (some t)).storedToken = none ∧
          (startup probe (some t)).isAuthenticated = false ∧
          (startup probe (some t)).isLoading = false) := by
  refine ⟨fun _ => rfl, ?_, ?_, ?_⟩
  · intro stored h
    simp [startup, h, initState]
  · intro t u hne h
    have htr : strTruthy (some t) = true := by simp [strTruthy, hne]
    simp [startup, htr, login, h]
  · intro t hne h
    have htr : strTruthy (some t) = true := by simp [strTruthy, hne]
    simp [startup, htr, login, h, initState]

theorem C8_witness :
    ((startup validProbe (some "good")).isAuthenticated = true ∧
      (startup validProbe (some "good")).isLoading = false) ∧
      ((startup validProbe (some "bad")).storedToken = none ∧
        (startup validProbe (some "bad")).isAuthenticated = false ∧
        (startup validProbe (some "bad")).isLoading = false) ∧
      ((startup validProbe none).isLoading = false ∧
        (startup validProbe none).isAuthenticated = false ∧
        (startup validProbe none).storedToken = none) :=
  ⟨(C8_startup_resolution validProbe).2.2.1 "good" aliceUser (by decide) (by decide),
    (C8_startup_resolution validProbe).2.2.2 "bad" (by decide) (by decide),
    (C8_startup_resolution validProbe).2.1 none (by decide)⟩

/-- With the all-zero random stream every gist receives count `0`. -/
theorem addStargazersCount_randZero :
    addStargazersCount randZero 0 [exGist] = [{ exGist with stargazers_count := some 0 }] := by
  simp [addStargazersCount, randZero]

/-- With the all-one-half random stream every gist receives count `50`. -/
theorem addStargazersCount_randHalf :
    addStargazersCount randHalf 0 [exGist] = [{ exGist with stargazers_count := some 50 }] := by
  norm_num [addStargazersCount, randHalf]

/-- Claim C3: `isGistStarred` never propagates an error to its caller —
it is a total Boolean function of the remote outcome — returning `true`
exactly when the remote check succeeds, and `false` on every failure:
the negative existence check and any other remote error (e.g. a network
error) alike. -/
theorem C3_isGistStarred_swallows_errors :
    (∀ r : Except RemoteErr Unit, isGistStarred r = true ↔ r = .ok ()) ∧
      (∀ e : RemoteErr, isGistStarred (.error e) = false) := by
  constructor
  · intro r
    cases r with
    | ok u => cases u; simp [isGistStarred]
    | error e => simp [isGistStarred]
  · intro e; rfl

/-- Claim C4: for any random stream drawing values in `[0, 1)`,
`addStargazersCount` gives every output gist a `stargazers_count` in
`[0, 100)`, for any input list, without raising (it is a total
function); and the count is drawn per gist per call, so two calls on the
same gist can yield different counts. -/
theorem C4_addStargazersCount_range :
    (∀ (rand : Nat → ℚ), (∀ n, 0 ≤ rand n ∧ rand n < 1) →
      ∀ (i : Nat) (gists : List Gist), ∀ g ∈ addStargazersCount rand i gists,
        ∃ c : ℤ, g.stargazers_count = some c ∧ 0 ≤ c ∧ c < 100) ∧
      addStargazersCount randZero 0 [exGist] ≠ addStargazersCount randHalf 0 [exGist] := by
  constructor
  · intro rand hr i gists
    induction gists generalizing i with
    | nil => intro g hg; exact absurd hg (by simp [addStargazersCount])
    | cons a as ih =>
      intro g hg
      simp only [addStargazersCount] at hg
      rcases List.mem_cons.mp hg with rfl | hgs
      · refine ⟨⌊rand i * 100⌋, rfl, ?_, ?_⟩
        · exact Int.floor_nonneg.mpr (mul_nonneg (hr i).1 (by norm_num))
        · have h100 : rand i * 100 < 100 := by nlinarith [(hr i).2]
          exact Int.floor_lt.mpr (by push_cast; linarith)
      · exact ih (i + 1) g hgs
  · rw [addStargazersCount_randZero, addStargazersCount_randHalf]
    decide

theorem C4_witness :
    ∃ c : ℤ, ({ exGist with stargazers_count := some 0 } : Gist).stargazers_count = some c ∧
      0 ≤ c ∧ c < 100 :=
  C4_addStargazersCount_range.1 randZero (fun _ => by constructor <;> norm_num [randZero])
    0 [exGist] { exGist with stargazers_count := some 0 }
    (by rw [addStargazersCount_randZero]; exact List.mem_singleton.mpr rfl)

/-- Claim C9: `addStargazersCount` returns a list of the same length, in
the same order, each output gist agreeing with its input gist on every
field other than `stargazers_count`. -/
theorem C9_addStargazersCount_frame (rand : Nat → ℚ) (i : Nat) (gists : List Gist) :
    (addStargazersCount rand i gists).length = gists.length ∧
      List.Forall₂ sameExceptStars gists (addStargazersCount rand i gists) := by
  induction gists generalizing i with
  | nil => exact ⟨rfl, List.Forall₂.nil⟩
  | cons g gs ih =>
    refine ⟨?_, ?_⟩
    · simp only [addStargazersCount, List.length_cons, (ih (i + 1)).1]
    · exact List.Forall₂.cons ⟨rfl, rfl, rfl, rfl, rfl, rfl, rfl, rfl, rfl, rfl⟩ (ih (i + 1)).2

/-- Claim C5 as frozen is false: the payload object is written
entry-by-entry with last-write-wins, so when another form entry's current
filename collides with a deleted file's original filename, the deletion
marker is overwritten — here the payload maps `a.txt` to the content
object of the colliding entry, not to the deletion marker. -/
theorem C5_counterexample :
    deletedEntry ∈ [deletedEntry, collidingEntry] ∧
      deletedEntry.isDeleted = true ∧
      deletedEntry.originalFilename = some "a.txt" ∧
      recordLookup (buildUpdatePayload [deletedEntry, collidingEntry]) "a.txt" =
        some (some "y") := by
  decide

/-- Claim C5 (amended): entries are written in form order with
last-write-wins, so the claimed mapping holds whenever no other entry
writes to the same key. A deleted existing file (truthy original
filename) maps its original filename to the deletion marker provided no
entry writes content under that name; a renamed file additionally maps
its current filename to its content provided it is the only entry
touching that name; every other (non-deleted, non-renamed) file maps its
current filename to its content provided it is the only entry touching
that name. -/
theorem C5_update_payload (fs : List FormFile) (e : FormFile) (he : e ∈ fs) :
    (e.isDeleted = true → strTruthy e.originalFilename = true →
      ∀ o, e.originalFilename = some o →
      (∀ f ∈ fs, writeAt f o = none ∨ writeAt f o = some none) →
      recordLookup (buildUpdatePayload fs) o = some none) ∧
    (e.isDeleted = false → strTruthy e.originalFilename = true →
      ∀ o, e.originalFilename = some o → o ≠ e.filename →
      (∀ f ∈ fs, writeAt f o = none ∨ writeAt f o = some none) →
      (∀ f ∈ fs, f = e ∨ writeAt f e.filename = none) →
      recordLookup (buildUpdatePayload fs) o = some none ∧
        recordLookup (buildUpdatePayload fs) e.filename = some (some e.content)) ∧
    ((e.isDeleted = true → strTruthy e.originalFilename = false) →
      (∀ o, e.originalFilename = some o → strTruthy e.originalFilename = true →
        o = e.filename) →
      (∀ f ∈ fs, f = e ∨ writeAt f e.filename = none) →
      recordLookup (buildUpdatePayload fs) e.filename = some (some e.content)) := by
  refine ⟨?_, ?_, ?_⟩
  · intro hdel htr o ho hcf
    have hw : writeAt e o = some none := by
      unfold writeAt
      rw [if_pos ⟨hdel, htr⟩, ho]
      simp
    exact lookup_null_writer fs e o he hw hcf
  · intro hdel htr o ho hne hcf honly
    have hc1 : ¬(e.isDeleted = true ∧ strTruthy e.originalFilename = true) := by
      rintro ⟨h1, _⟩
      rw [hdel] at h1
      cases h1
    have hc2 : strTruthy e.originalFilename = true ∧
        e.originalFilename.getD "" ≠ e.filename := by
      refine ⟨htr, ?_⟩
      rw [ho]
      exact hne
    constructor
    · have hw : writeAt e o = some none := by
        unfold writeAt
        rw [if_neg hc1, if_pos hc2, if_neg, if_pos]
        · rw [ho]; rfl
        · exact fun hh => hne hh.symm
      exact lookup_null_writer fs e o he hw hcf
    · have hw : writeAt e e.filename = some (some e.content) := by
        unfold writeAt
        rw [if_neg hc1, if_pos hc2, if_pos rfl]
      exact lookup_only_writer fs e e.filename he hw honly
  · intro hd1 hd2 honly
    have hw : writeAt e e.filename = some (some e.content) := by
      by_cases htr : strTruthy e.originalFilename = true
      · have hc1 : ¬(e.isDeleted = true ∧ strTruthy e.originalFilename = true) := by
          rintro ⟨h1, _⟩
          rw [hd1 h1] at htr
          cases htr
        cases hor : e.originalFilename with
        | none => rw [hor] at htr; exact absurd htr (by simp [strTruthy])
        | some s =>
          have hs : s = e.filename := hd2 s hor htr
          have hc2 : ¬(strTruthy e.originalFilename = true ∧
              e.originalFilename.getD "" ≠ e.filename) := by
            rintro ⟨_, hne⟩
            rw [hor] at hne
            exact hne hs
          unfold writeAt
          rw [if_neg hc1, if_neg hc2, if_pos rfl]
      · have hc1 : ¬(e.isDeleted = true ∧ strTruthy e.originalFilename = true) :=
          fun hh => htr hh.2
        have hc2 : ¬(strTruthy e.originalFilename = true ∧
            e.originalFilename.getD "" ≠ e.filename) :=
          fun hh => htr hh.1
        unfold writeAt
        rw [if_neg hc1, if_neg hc2, if_pos rfl]
    exact lookup_only_writer fs e e.filename he hw honly

theorem C5_witness :
    recordLookup (buildUpdatePayload [deletedEntry]) "a.txt" = some none :=
  (C5_update_payload [deletedEntry] deletedEntry (by decide)).1 (by decide) (by decide)
    "a.txt" (by decide) (by decide)

/-- Claim C10: submitting the create form with two or more entries
sharing a filename raises no error and performs no duplicate check
(payload building is a total fold over the entries): the payload holds
exactly one entry under that filename, carrying the content of the last
such form entry, and `createGist` forwards the record to the remote call
unchanged. -/
theorem C10_create_duplicate_filenames (fs : List CreateFormFile) (n : String)
    (h : 2 ≤ (fs.filter (fun f => decide (f.filename = n))).length) :
    countKey (buildCreatePayload fs) n = 1 ∧
      (∃ f, (fs.filter (fun f => decide (f.filename = n))).getLast? = some f ∧
        recordLookup (buildCreatePayload fs) n = some (some f.content)) ∧
      (∀ (d : String) (p : Bool),
        (createGist d (buildCreatePayload fs) p).files = buildCreatePayload fs) := by
  obtain ⟨f, hf⟩ : ∃ f, (fs.filter (fun f => decide (f.filename = n))).getLast? = some f := by
    cases hfl : fs.filter (fun f => decide (f.filename = n)) with
    | nil => rw [hfl] at h; exact absurd h (by simp)
    | cons x xs => exact getLast?_cons_exists xs x
  have hlook : recordLookup (buildCreatePayload fs) n = some (some f.content) := by
    rw [recordLookup_buildCreatePayload, filterMap_writeAtCreate, getLast?_map, hf]
    rfl
  refine ⟨?_, ⟨f, hf, hlook⟩, fun _ _ => rfl⟩
  have hle : countKey (buildCreatePayload fs) n ≤ 1 :=
    countKey_foldl_createStep_le fs [] (fun k => by simp [countKey]) n
  have hmem : n ∈ (buildCreatePayload fs).map Prod.fst :=
    mem_of_recordLookup_eq_some _ _ _ hlook
  have hpos : countKey (buildCreatePayload fs) n ≠ 0 := by
    unfold countKey
    intro h0
    exact (List.count_eq_zero.mp h0) hmem
  omega

theorem C10_witness :
    countKey (buildCreatePayload [⟨"a", "x"⟩, ⟨"a", "y"⟩]) "a" = 1 ∧
      recordLookup (buildCreatePayload [⟨"a", "x"⟩, ⟨"a", "y"⟩]) "a" = some (some "y") := by
  have h := C10_create_duplicate_filenames [⟨"a", "x"⟩, ⟨"a", "y"⟩] "a" (by decide)
  refine ⟨h.1, ?_⟩
  obtain ⟨f, hf, hl⟩ := h.2.1
  have hev : (([⟨"a", "x"⟩, ⟨"a", "y"⟩] : List CreateFormFile).filter
      (fun f => decide (f.filename = "a"))).getLast? = some ⟨"a", "y"⟩ := by decide
  rw [hev] at hf
  obtain rfl : f = (⟨"a", "y"⟩ : CreateFormFile) := (Option.some_inj.mp hf).symm
  exact hl

end GistClient
